import Mathlib

/-!
Verification of the face-recognition attendance loop
(`attendance_system/core/face_recognition.py`).

The Python class `FaceRecognitionProcessor` is embedded shallowly:

* instance state (`self.*`) becomes the structure `FaceRecognitionProcessor`;
* timestamps (`time.time()` / `datetime.now()` values, in seconds) and
  similarity scores are modelled as integers, which keeps every comparison
  and subtraction of the source exact and kernel-evaluable;
* the Python dict `last_recognition_times` is an association list with
  dict semantics (`dictLookup` / `dictInsert`);
* the external AWS comparator is a parameter `cmp : String → CmpResult`
  giving, per reference filename, either an error (a raised exception)
  or the list of similarity scores of the reported matches — the captured
  frame is fixed during one scan, so it is implicit in `cmp`;
* reading a reference file from disk may raise: `readFails : String → Bool`
  (such an exception escapes the per-reference handler and is caught by the
  outer handler of `compare_with_stored_faces`);
* the attendance callback may raise: `cbRaises : AttendanceRecord → Bool`;
* each method returns the new state plus its observable effects.
-/

/-- Result of one call of the external face comparator against one stored
reference image: the call either raises, or returns the similarity scores
of the reported `FaceMatches` (the code reads the head of that list). -/
inductive CmpResult where
  | err : CmpResult
  | ok : List ℤ → CmpResult
deriving DecidableEq

/-- The attendance record constructed by `handle_recognition` and handed to
the callback. -/
structure AttendanceRecord where
  student_id : String
  device_id : String
  capture_timestamp : ℤ
  confidence_score : ℤ
deriving DecidableEq

/-- Python dict lookup (`m[k]` / `k in m`) on an association list. -/
def dictLookup (m : List (String × ℤ)) (k : String) : Option ℤ :=
  match m with
  | [] => none
  | (k', v) :: rest => if k' = k then some v else dictLookup rest k

/-- Python dict update (`m[k] = v`) on an association list: replaces the
binding when the key is present, appends it otherwise. -/
def dictInsert (m : List (String × ℤ)) (k : String) (v : ℤ) : List (String × ℤ) :=
  match m with
  | [] => [(k, v)]
  | (k', v') :: rest =>
    if k' = k then (k, v) :: rest else (k', v') :: dictInsert rest k v

/-- Instance state of the Python class `FaceRecognitionProcessor`.
`camera` is `none` before `start_camera` assigns it, and `some b` for a
`VideoCapture` object whose `isOpened()` is `b` (release sets it false). -/
structure FaceRecognitionProcessor where
  device_id : String
  recognition_interval : ℤ
  last_recognition_times : List (String × ℤ)
  camera : Option Bool
  is_running : Bool
  last_recognition_text : Option String
  text_display_time : Option ℤ
  text_duration : ℤ
deriving DecidableEq

/-- `__init__(device_id, recognition_interval=5)`. -/
def FaceRecognitionProcessor.init (device_id : String)
    (recognition_interval : ℤ) : FaceRecognitionProcessor :=
  { device_id := device_id
    recognition_interval := recognition_interval
    last_recognition_times := []
    camera := none
    is_running := false
    last_recognition_text := none
    text_display_time := none
    text_duration := 2 }

/-- Index of the last `'.'` in a character list, `none` when there is no
dot (the `p.rfind('.')` step of CPython `os.path.splitext` for a plain
filename containing no path separator). -/
def lastDotIdx : List Char → Option Nat
  | [] => none
  | c :: rest =>
    match lastDotIdx rest with
    | some i => some (i + 1)
    | none => if c = '.' then some 0 else none

/-- Root part of CPython `os.path.splitext` on a plain filename: split at
the last dot, unless every character before that dot is itself a dot
(leading dots of the basename are part of the root, e.g. `.jpg` keeps its
name whole), or there is no dot at all. -/
def splitextRootL (p : List Char) : List Char :=
  match lastDotIdx p with
  | none => p
  | some dotIndex =>
    if (p.take dotIndex).any (fun c => decide (c ≠ '.')) then p.take dotIndex
    else p

/-- `os.path.splitext(face_file)[0]` for a plain filename. -/
def splitextRoot (s : String) : String := String.mk (splitextRootL s.data)

/-- `face_file.lower().endswith(('.png', '.jpg', '.jpeg'))`. -/
def hasImageExt (s : String) : Bool :=
  let low := s.data.map Char.toLower
  ".png".data.isSuffixOf low || ".jpg".data.isSuffixOf low
    || ".jpeg".data.isSuffixOf low

/-- `compare_with_stored_faces(frame)`: linear scan over the directory
listing.  Non-image filenames are skipped; a file-read exception escapes to
the outer handler, which returns `(None, 0)`; a comparator exception is
caught per reference and scanning continues; the first reference whose
`FaceMatches` list is non-empty wins and its first similarity is returned;
an exhausted scan returns `(None, 0)`. -/
def compare_with_stored_faces (readFails : String → Bool)
    (cmp : String → CmpResult) : List String → Option String × ℤ
  | [] => (none, 0)
  | face_file :: rest =>
    if hasImageExt face_file = false then
      compare_with_stored_faces readFails cmp rest
    else if readFails face_file = true then
      (none, 0)
    else
      match cmp face_file with
      | .err => compare_with_stored_faces readFails cmp rest
      | .ok [] => compare_with_stored_faces readFails cmp rest
      | .ok (sim :: _) => (some (splitextRoot face_file), sim)

/-- `handle_recognition(enrollment_code, similarity, callback)` at clock
value `current_time`.  Returns the new state, the record passed to the
callback (`none` when the cooldown gate suppressed the event), and whether
the callback raised. -/
def handle_recognition (cbRaises : AttendanceRecord → Bool)
    (s : FaceRecognitionProcessor) (enrollment_code : String)
    (similarity : ℤ) (current_time : ℤ) :
    FaceRecognitionProcessor × Option AttendanceRecord × Bool :=
  let doAccept : FaceRecognitionProcessor × Option AttendanceRecord × Bool :=
    let m' := dictInsert s.last_recognition_times enrollment_code current_time
    let s' := { s with last_recognition_times := m' }
    let record : AttendanceRecord :=
      { student_id := enrollment_code
        device_id := s.device_id
        capture_timestamp := current_time
        confidence_score := similarity }
    (s', some record, cbRaises record)
  match dictLookup s.last_recognition_times enrollment_code with
  | some last =>
    if current_time - last < s.recognition_interval then (s, none, false)
    else doAccept
  | none => doAccept

/-- Observable outcome of `process_frame`: the new state, the Python return
value (`ret`), the record passed to the callback if it was invoked, and
whether the surrounding `except` branch ran (an exception was logged). -/
structure FrameResult where
  state : FaceRecognitionProcessor
  ret : Option String
  invoked : Option AttendanceRecord
  raised : Bool
deriving DecidableEq

/-- `process_frame(frame, callback)` at clock value `now`.  Runs the scan,
and — when the returned enrollment code is truthy — handles the recognition
and unconditionally refreshes the overlay text and its display timestamp.
A callback exception is caught here and turns the return value into `None`. -/
def process_frame (readFails : String → Bool) (cmp : String → CmpResult)
    (cbRaises : AttendanceRecord → Bool) (s : FaceRecognitionProcessor)
    (dir : List String) (now : ℤ) : FrameResult :=
  let cr := compare_with_stored_faces readFails cmp dir
  match cr.1 with
  | none => { state := s, ret := none, invoked := none, raised := false }
  | some c =>
    if c = "" then { state := s, ret := some c, invoked := none, raised := false }
    else
      let h := handle_recognition cbRaises s c cr.2 now
      if h.2.2 then { state := h.1, ret := none, invoked := h.2.1, raised := true }
      else
        { state :=
            { h.1 with last_recognition_text := some ("Face Recognized: " ++ c)
                       text_display_time := some now }
          ret := some c
          invoked := h.2.1
          raised := false }

/-- `start_camera(camera_index)`: assigns `self.camera` (even when opening
fails), then raises when `isOpened()` is false.  `opens` abstracts whether
the device could be opened; the carried state records the mutation that
happened before the raise. -/
def start_camera (s : FaceRecognitionProcessor) (opens : Bool) :
    Except FaceRecognitionProcessor FaceRecognitionProcessor :=
  let s1 := { s with camera := some opens }
  if opens then .ok s1 else .error s1

/-- State reached by `start_camera` whether or not it raised. -/
def exceptState (e : Except FaceRecognitionProcessor FaceRecognitionProcessor) :
    FaceRecognitionProcessor :=
  match e with
  | .ok s => s
  | .error s => s

/-- `stop()`: clears the running flag and releases the camera (the Python
attribute keeps pointing at the released object).  Nothing else is touched. -/
def stop (s : FaceRecognitionProcessor) : FaceRecognitionProcessor :=
  { s with is_running := false, camera := s.camera.map (fun _ => false) }

/-- The overlay block of `run_recognition` at clock value `now`:
`if self.last_recognition_text and self.text_display_time:` (Python
truthiness: `None`, the empty string and the float `0.0` are falsy), then
either draw the rectangle and text (result flag `true`) or, once the
duration has expired, clear both fields.  Returns the new state and whether
the overlay was rendered on this frame. -/
def overlay_step (s : FaceRecognitionProcessor) (now : ℤ) :
    FaceRecognitionProcessor × Bool :=
  match s.last_recognition_text, s.text_display_time with
  | some txt, some t =>
    if txt = "" ∨ t = 0 then (s, false)
    else if now - t ≤ s.text_duration then (s, true)
    else ({ s with last_recognition_text := none, text_display_time := none },
          false)
  | _, _ => (s, false)

/-- Per-iteration environment of the `while` loop in `run_recognition`:
whether `stop()` was requested before this iteration's condition check,
whether `camera.read()` succeeded, the `time.time()` value read in this
iteration, and whether `cv2.waitKey` reported the `q` key. -/
structure IterInput where
  stopRequested : Bool
  ret : Bool
  current_time : ℤ
  keyIsQ : Bool
deriving DecidableEq

/-- Observable outcome of one executed body of the `while` loop. -/
structure IterResult where
  state : FaceRecognitionProcessor
  last_process_time : ℤ
  time : ℤ
  ranMatchCycle : Bool
  renderedOverlay : Bool
  invoked : Option AttendanceRecord
  slept : Bool
  brokeOut : Bool
deriving DecidableEq

/-- One body of the `while self.is_running` loop.  A failed capture logs
and `continue`s — skipping the match gate, the overlay block and the
trailing `time.sleep(0.1)`.  Otherwise the match cycle runs iff at least
`recognition_interval` seconds elapsed since `last_process_time` (updated
to the current clock when the cycle runs), the overlay block runs, and the
`q` key breaks out of the loop before the sleep. -/
def loop_iteration (readFails : String → Bool) (cmp : String → CmpResult)
    (cbRaises : AttendanceRecord → Bool) (dir : List String)
    (s : FaceRecognitionProcessor) (lpt : ℤ) (inp : IterInput) : IterResult :=
  if inp.ret = false then
    { state := s, last_process_time := lpt, time := inp.current_time
      ranMatchCycle := false, renderedOverlay := false, invoked := none
      slept := false, brokeOut := false }
  else
    let runCycle : Bool := decide (s.recognition_interval ≤ inp.current_time - lpt)
    let pr := if runCycle then process_frame readFails cmp cbRaises s dir inp.current_time
              else { state := s, ret := none, invoked := none, raised := false }
    let lpt' := if runCycle then inp.current_time else lpt
    let ov := overlay_step pr.state inp.current_time
    { state := ov.1, last_process_time := lpt', time := inp.current_time
      ranMatchCycle := runCycle, renderedOverlay := ov.2, invoked := pr.invoked
      slept := !inp.keyIsQ, brokeOut := inp.keyIsQ }

/-- How a run of the loop ended: the `while` condition saw a false running
flag, the `q` key broke out, or the supplied iteration inputs (the fuel of
this embedding) ran out with the loop still going. -/
inductive LoopExit where
  | stopFlag : LoopExit
  | qPressed : LoopExit
  | fuelOut : LoopExit
deriving DecidableEq

/-- Outcome of running the loop over a list of per-iteration inputs. -/
structure LoopResult where
  state : FaceRecognitionProcessor
  last_process_time : ℤ
  exit : LoopExit
  trace : List IterResult
deriving DecidableEq

/-- The `while self.is_running` loop of `run_recognition`, driven by a list
of per-iteration inputs.  A pending `stop()` request clears the flag before
the condition check (the cooperative cross-thread stop of the Python code). -/
def run_recognition_loop (readFails : String → Bool) (cmp : String → CmpResult)
    (cbRaises : AttendanceRecord → Bool) (dir : List String)
    (s : FaceRecognitionProcessor) (lpt : ℤ) :
    List IterInput → LoopResult
  | [] => { state := s, last_process_time := lpt, exit := .fuelOut, trace := [] }
  | inp :: rest =>
    let s0 := if inp.stopRequested then { s with is_running := false } else s
    if s0.is_running = false then
      { state := s0, last_process_time := lpt, exit := .stopFlag, trace := [] }
    else
      let r := loop_iteration readFails cmp cbRaises dir s0 lpt inp
      if r.brokeOut then
        { state := r.state, last_process_time := r.last_process_time
          exit := .qPressed, trace := [r] }
      else
        let out := run_recognition_loop readFails cmp cbRaises dir r.state
          r.last_process_time rest
        { out with trace := r :: out.trace }

/-- `run_recognition(callback)`: sets the running flag, initialises
`last_process_time` to the clock at entry, and enters the loop. -/
def run_recognition (readFails : String → Bool) (cmp : String → CmpResult)
    (cbRaises : AttendanceRecord → Bool) (dir : List String)
    (s : FaceRecognitionProcessor) (startTime : ℤ)
    (inputs : List IterInput) : LoopResult :=
  run_recognition_loop readFails cmp cbRaises dir
    { s with is_running := true } startTime inputs

/-- Clock values of the iterations whose match cycle ran. -/
def cycleTimesOf (trace : List IterResult) : List ℤ :=
  (trace.filter (fun r => r.ranMatchCycle)).map (fun r => r.time)

/-- Repeated `handle_recognition` calls for one enrollment code with the
given (clock, similarity) pairs, threading the state and collecting every
record passed to the callback. -/
def handleMany (cbRaises : AttendanceRecord → Bool)
    (s : FaceRecognitionProcessor) (enrollment_code : String) :
    List (ℤ × ℤ) → FaceRecognitionProcessor × List AttendanceRecord
  | [] => (s, [])
  | (now, sim) :: rest =>
    let h := handle_recognition cbRaises s enrollment_code sim now
    let r := handleMany cbRaises h.1 enrollment_code rest
    (r.1, h.2.1.toList ++ r.2)

theorem lastDotIdx_eq_none_of_not_mem (l : List Char) (h : '.' ∉ l) :
    lastDotIdx l = none := by
  induction l with
  | nil => rfl
  | cons c rest ih =>
    have hc : ¬c = '.' := fun e => h (by simp [e])
    have hr : '.' ∉ rest := fun m => h (by simp [m])
    simp [lastDotIdx, ih hr, hc]

theorem lastDotIdx_append (stem ec : List Char) (hec : '.' ∉ ec) :
    lastDotIdx (stem ++ '.' :: ec) = some stem.length := by
  induction stem with
  | nil => simp [lastDotIdx, lastDotIdx_eq_none_of_not_mem ec hec]
  | cons c cs ih => simp [lastDotIdx, ih]

theorem splitextRootL_append (stem ec : List Char) (hec : '.' ∉ ec)
    (hstem : ∃ c ∈ stem, c ≠ '.') :
    splitextRootL (stem ++ '.' :: ec) = stem := by
  unfold splitextRootL
  rw [lastDotIdx_append stem ec hec]
  simp [List.take_left stem ('.' :: ec)]
  exact hstem

theorem splitextRootL_append_alldots (stem ec : List Char) (hec : '.' ∉ ec)
    (hall : ∀ c ∈ stem, c = '.') :
    splitextRootL (stem ++ '.' :: ec) = stem ++ '.' :: ec := by
  unfold splitextRootL
  rw [lastDotIdx_append stem ec hec]
  simp [List.take_left stem ('.' :: ec)]
  exact hall

/-! Concrete fixtures used by witnesses and counterexamples. -/

/-- File reads never fail. -/
def rfF : String → Bool := fun _ => false

/-- The callback never raises. -/
def cbF : AttendanceRecord → Bool := fun _ => false

/-- Stub comparator: the frame matches the reference `E100.jpg` at 92%,
every other comparison raises. -/
def cmpE100 : String → CmpResult := fun f => if f = "E100.jpg" then .ok [92] else .err

/-- Stub comparator: the frame matches `E100.jpg` at 80% and `E200.jpg` at
the higher 99%. -/
def cmpTwo : String → CmpResult := fun f =>
  if f = "E100.jpg" then .ok [80] else if f = "E200.jpg" then .ok [99] else .err

/-- Stub comparator: the frame matches the dot-file reference `.jpg` at 90%. -/
def cmpDot : String → CmpResult := fun f => if f = ".jpg" then .ok [90] else .err

/-- Freshly constructed processor with a 5 second interval. -/
def sEmpty : FaceRecognitionProcessor := FaceRecognitionProcessor.init "device-1" 5

/-- Processor whose cooldown table remembers accepting `E100` at time 0. -/
def sCooldown : FaceRecognitionProcessor :=
  { sEmpty with last_recognition_times := [("E100", 0)] }

/-- Processor with an overlay set at time 10 and a populated cooldown table. -/
def sOverlay : FaceRecognitionProcessor :=
  { sEmpty with
      last_recognition_times := [("E100", 10)]
      last_recognition_text := some "Face Recognized: E100"
      text_display_time := some 10 }

/-- Processor whose running flag is set, as at the top of `run_recognition`. -/
def sRun : FaceRecognitionProcessor := { sEmpty with is_running := true }

example :
    compare_with_stored_faces (fun _ => false)
      (fun f => if f = "E100.jpg" then .ok [92] else .err)
      ["notes.txt", "bad.jpg", "E100.jpg", "E200.jpg"]
      = (some "E100", 92) := by decide

example : splitextRoot ".jpg" = ".jpg" := by decide

example : hasImageExt "Photo.JPeG" = true := by decide

/-! Helper lemmas. -/

theorem compare_skip_nonimage (readFails : String → Bool) (cmp : String → CmpResult)
    (g : String) (rest : List String) (hg : hasImageExt g = false) :
    compare_with_stored_faces readFails cmp (g :: rest)
      = compare_with_stored_faces readFails cmp rest := by
  simp [compare_with_stored_faces, hg]

theorem compare_skip_err (readFails : String → Bool) (cmp : String → CmpResult)
    (g : String) (rest : List String) (hg : hasImageExt g = true)
    (hrf : readFails g = false) (hc : cmp g = .err) :
    compare_with_stored_faces readFails cmp (g :: rest)
      = compare_with_stored_faces readFails cmp rest := by
  simp [compare_with_stored_faces, hg, hrf, hc]

theorem compare_skip_nomatch (readFails : String → Bool) (cmp : String → CmpResult)
    (g : String) (rest : List String) (hg : hasImageExt g = true)
    (hrf : readFails g = false) (hc : cmp g = .ok []) :
    compare_with_stored_faces readFails cmp (g :: rest)
      = compare_with_stored_faces readFails cmp rest := by
  simp [compare_with_stored_faces, hg, hrf, hc]

theorem compare_hit (readFails : String → Bool) (cmp : String → CmpResult)
    (f : String) (rest : List String) (sim : ℤ) (sims : List ℤ)
    (hf : hasImageExt f = true) (hrf : readFails f = false)
    (hc : cmp f = .ok (sim :: sims)) :
    compare_with_stored_faces readFails cmp (f :: rest)
      = (some (splitextRoot f), sim) := by
  simp [compare_with_stored_faces, hf, hrf, hc]

theorem dictLookup_dictInsert_self (m : List (String × ℤ)) (k : String) (v : ℤ) :
    dictLookup (dictInsert m k v) k = some v := by
  induction m with
  | nil => simp [dictInsert, dictLookup]
  | cons p rest ih =>
    by_cases h : p.1 = k
    · simp [dictInsert, dictLookup, h]
    · simp [dictInsert, dictLookup, h, ih]

theorem handle_recognition_suppressed (cb : AttendanceRecord → Bool)
    (s : FaceRecognitionProcessor) (c : String) (sim now tl : ℤ)
    (hl : dictLookup s.last_recognition_times c = some tl)
    (hlt : now - tl < s.recognition_interval) :
    handle_recognition cb s c sim now = (s, none, false) := by
  simp [handle_recognition, hl, hlt]

theorem handle_recognition_accepted (cb : AttendanceRecord → Bool)
    (s : FaceRecognitionProcessor) (c : String) (sim now : ℤ)
    (h : ∀ tl, dictLookup s.last_recognition_times c = some tl →
      s.recognition_interval ≤ now - tl) :
    handle_recognition cb s c sim now =
      ({ s with last_recognition_times := dictInsert s.last_recognition_times c now },
       some { student_id := c, device_id := s.device_id,
              capture_timestamp := now, confidence_score := sim },
       cb { student_id := c, device_id := s.device_id,
            capture_timestamp := now, confidence_score := sim }) := by
  cases hl : dictLookup s.last_recognition_times c with
  | none => simp [handle_recognition, hl]
  | some tl =>
    have hle := h tl hl
    simp [handle_recognition, hl, not_lt.mpr hle]

theorem handle_recognition_invoked_state (cb : AttendanceRecord → Bool)
    (s : FaceRecognitionProcessor) (c : String) (sim now : ℤ)
    (h : ((handle_recognition cb s c sim now).2.1).isSome = true) :
    (handle_recognition cb s c sim now).1 =
      { s with last_recognition_times := dictInsert s.last_recognition_times c now } := by
  cases hl : dictLookup s.last_recognition_times c with
  | none => simp [handle_recognition, hl]
  | some tl =>
    by_cases hlt : now - tl < s.recognition_interval
    · rw [handle_recognition_suppressed cb s c sim now tl hl hlt] at h
      simp at h
    · simp [handle_recognition, hl, hlt]

theorem splitextRootL_ne_nil (p : List Char) (h : p ≠ []) :
    splitextRootL p ≠ [] := by
  unfold splitextRootL
  cases hl : lastDotIdx p with
  | none => exact h
  | some i =>
    by_cases ha : (p.take i).any (fun c => decide (c ≠ '.')) = true
    · simp only [ha, if_true]
      intro hnil
      rw [hnil] at ha
      simp [List.any] at ha
    · simp only [ha, if_false]
      exact h

theorem splitextRoot_ne_empty (f : String) (h : f ≠ "") : splitextRoot f ≠ "" := by
  have hd : f.data ≠ [] := by
    intro hd
    apply h
    cases f with
    | mk d =>
      simp only [String.data] at hd
      rw [hd]
  intro hc
  apply splitextRootL_ne_nil f.data hd
  have : (splitextRoot f).data = [] := by rw [hc]
  simpa [splitextRoot] using this

theorem hasImageExt_empty_false : hasImageExt "" = false := by decide

theorem handle_recognition_fields (cb : AttendanceRecord → Bool)
    (s : FaceRecognitionProcessor) (c : String) (sim now : ℤ) :
    (handle_recognition cb s c sim now).1.recognition_interval = s.recognition_interval
    ∧ (handle_recognition cb s c sim now).1.is_running = s.is_running := by
  unfold handle_recognition
  cases hl : dictLookup s.last_recognition_times c with
  | none => simp
  | some tl =>
    by_cases hlt : now - tl < s.recognition_interval <;> simp [hlt]

theorem process_frame_fields (readFails : String → Bool) (cmp : String → CmpResult)
    (cb : AttendanceRecord → Bool) (s : FaceRecognitionProcessor)
    (dir : List String) (now : ℤ) :
    (process_frame readFails cmp cb s dir now).state.recognition_interval
        = s.recognition_interval
    ∧ (process_frame readFails cmp cb s dir now).state.is_running = s.is_running := by
  unfold process_frame
  cases hc : (compare_with_stored_faces readFails cmp dir).1 with
  | none => simp [hc]
  | some c =>
    by_cases hce : c = ""
    · simp [hc, hce]
    · have hh := handle_recognition_fields cb s c
        (compare_with_stored_faces readFails cmp dir).2 now
      by_cases hr : (handle_recognition cb s c
          (compare_with_stored_faces readFails cmp dir).2 now).2.2 = true
      · simp [hc, hce, hr, hh.1, hh.2]
      · simp [hc, hce, hr, hh.1, hh.2]

theorem overlay_step_fields (s : FaceRecognitionProcessor) (now : ℤ) :
    (overlay_step s now).1.recognition_interval = s.recognition_interval
    ∧ (overlay_step s now).1.is_running = s.is_running := by
  unfold overlay_step
  cases htxt : s.last_recognition_text with
  | none => simp
  | some txt =>
    cases ht : s.text_display_time with
    | none => simp
    | some t =>
      by_cases h1 : txt = "" ∨ t = 0
      · simp [h1]
      · by_cases h2 : now - t ≤ s.text_duration
        · simp [h1, h2]
        · simp [h1, h2]

theorem loop_iteration_spec (readFails : String → Bool) (cmp : String → CmpResult)
    (cb : AttendanceRecord → Bool) (dir : List String)
    (s : FaceRecognitionProcessor) (lpt : ℤ) (inp : IterInput) :
    (loop_iteration readFails cmp cb dir s lpt inp).time = inp.current_time
    ∧ (loop_iteration readFails cmp cb dir s lpt inp).brokeOut
        = (inp.ret && inp.keyIsQ)
    ∧ (loop_iteration readFails cmp cb dir s lpt inp).slept
        = (inp.ret && !inp.keyIsQ)
    ∧ (loop_iteration readFails cmp cb dir s lpt inp).ranMatchCycle
        = (inp.ret && decide (s.recognition_interval ≤ inp.current_time - lpt))
    ∧ (loop_iteration readFails cmp cb dir s lpt inp).last_process_time
        = (if (loop_iteration readFails cmp cb dir s lpt inp).ranMatchCycle
           then inp.current_time else lpt)
    ∧ (loop_iteration readFails cmp cb dir s lpt inp).state.recognition_interval
        = s.recognition_interval
    ∧ (loop_iteration readFails cmp cb dir s lpt inp).state.is_running
        = s.is_running := by
  cases hret : inp.ret with
  | false => simp [loop_iteration, hret]
  | true =>
    by_cases hgate : s.recognition_interval ≤ inp.current_time - lpt
    · have hpf := process_frame_fields readFails cmp cb s dir inp.current_time
      have hov := overlay_step_fields
        (process_frame readFails cmp cb s dir inp.current_time).state inp.current_time
      simp [loop_iteration, hret, hgate, hov.1, hov.2, hpf.1, hpf.2]
    · have hov := overlay_step_fields s inp.current_time
      simp [loop_iteration, hret, hgate, hov.1, hov.2]

theorem compare_fst_ne_empty (readFails : String → Bool)
    (cmp : String → CmpResult) (dir : List String) (c : String)
    (h : (compare_with_stored_faces readFails cmp dir).1 = some c) :
    c ≠ "" := by
  induction dir with
  | nil => simp [compare_with_stored_faces] at h
  | cons f rest ih =>
    by_cases hext : hasImageExt f = false
    · rw [show compare_with_stored_faces readFails cmp (f :: rest)
           = compare_with_stored_faces readFails cmp rest by
          simp [compare_with_stored_faces, hext]] at h
      exact ih h
    · have hf : f ≠ "" := by
        intro hf0
        rw [hf0, hasImageExt_empty_false] at hext
        exact hext rfl
      by_cases hrf : readFails f = true
      · simp [compare_with_stored_faces, hext, hrf] at h
      · cases hcmp : cmp f with
        | err =>
          rw [show compare_with_stored_faces readFails cmp (f :: rest)
               = compare_with_stored_faces readFails cmp rest by
              simp [compare_with_stored_faces, hext, hrf, hcmp]] at h
          exact ih h
        | ok sims =>
          cases sims with
          | nil =>
            rw [show compare_with_stored_faces readFails cmp (f :: rest)
                 = compare_with_stored_faces readFails cmp rest by
                simp [compare_with_stored_faces, hext, hrf, hcmp]] at h
            exact ih h
          | cons sim tailSims =>
            have : compare_with_stored_faces readFails cmp (f :: rest)
                = (some (splitextRoot f), sim) := by
              simp [compare_with_stored_faces, hext, hrf, hcmp]
            rw [this] at h
            simp at h
            rw [← h]
            exact splitextRoot_ne_empty f hf

/-! Claim theorems. -/

/-- Claim C3: the match cycle returns the identity code (filename stem) and
similarity of the first reference for which the comparator reports at least
one match, and stops scanning there (first-match-wins): the result is the
same for every continuation `post` of the directory listing, so no later
reference can influence it, regardless of its similarity. -/
theorem C3_first_match_wins (readFails : String → Bool) (cmp : String → CmpResult)
    (pre : List String) (f : String) (sim : ℤ) (sims : List ℤ)
    (hpre : ∀ g ∈ pre, hasImageExt g = false
      ∨ (readFails g = false ∧ (cmp g = .err ∨ cmp g = .ok [])))
    (hf : hasImageExt f = true) (hrf : readFails f = false)
    (hcmp : cmp f = .ok (sim :: sims)) :
    ∀ post : List String,
      compare_with_stored_faces readFails cmp (pre ++ f :: post)
        = (some (splitextRoot f), sim) := by
  revert hpre
  induction pre with
  | nil =>
    intro _ post
    simpa using compare_hit readFails cmp f post sim sims hf hrf hcmp
  | cons g gs ih =>
    intro hpre post
    have hrest : ∀ x ∈ gs, hasImageExt x = false
        ∨ (readFails x = false ∧ (cmp x = .err ∨ cmp x = .ok [])) :=
      fun x hx => hpre x (by simp [hx])
    by_cases hgext : hasImageExt g = false
    · rw [List.cons_append, compare_skip_nonimage readFails cmp g _ hgext]
      exact ih hrest post
    · have hgtrue : hasImageExt g = true := by
        cases hgb : hasImageExt g
        · exact absurd hgb hgext
        · rfl
      rcases hpre g (by simp) with h1 | ⟨hgrf, hgc⟩
      · exact absurd h1 hgext
      · rcases hgc with hge | hgo
        · rw [List.cons_append, compare_skip_err readFails cmp g _ hgtrue hgrf hge]
          exact ih hrest post
        · rw [List.cons_append, compare_skip_nomatch readFails cmp g _ hgtrue hgrf hgo]
          exact ih hrest post

/-- Witness for C3 at a concrete directory: the second reference would match
at the higher 99%, yet the scan returns the first match `E100` at 80%. -/
theorem C3_witness :
    compare_with_stored_faces rfF cmpTwo ["notes.txt", "E100.jpg", "E200.jpg"]
      = (some "E100", 80) := by
  have e : splitextRoot "E100.jpg" = "E100" := by decide
  have h := C3_first_match_wins rfF cmpTwo ["notes.txt"] "E100.jpg" 80 []
    (by decide) (by decide) (by decide) (by decide) ["E200.jpg"]
  rw [e] at h
  exact h

/-- Claim C4: a comparator call that errors for one reference is caught and
skipped — the scan of the remaining directory is exactly the scan without
that reference — and when every reference is filtered out, errors, or
yields no match, the cycle returns the "no match" result `(none, 0)`
instead of raising. -/
theorem C4_errors_skipped (readFails : String → Bool) (cmp : String → CmpResult)
    (g : String) (rest dir : List String)
    (hgext : hasImageExt g = true) (hgrf : readFails g = false)
    (hgerr : cmp g = .err)
    (hdir : ∀ x ∈ dir, hasImageExt x = false
      ∨ (readFails x = false ∧ (cmp x = .err ∨ cmp x = .ok []))) :
    compare_with_stored_faces readFails cmp (g :: rest)
      = compare_with_stored_faces readFails cmp rest
    ∧ compare_with_stored_faces readFails cmp dir = (none, 0) := by
  constructor
  · exact compare_skip_err readFails cmp g rest hgext hgrf hgerr
  · revert hdir
    induction dir with
    | nil =>
      intro _
      simp [compare_with_stored_faces]
    | cons x xs ih =>
      intro hdir
      have hrest : ∀ y ∈ xs, hasImageExt y = false
          ∨ (readFails y = false ∧ (cmp y = .err ∨ cmp y = .ok [])) :=
        fun y hy => hdir y (by simp [hy])
      by_cases hxext : hasImageExt x = false
      · rw [compare_skip_nonimage readFails cmp x xs hxext]
        exact ih hrest
      · have hxtrue : hasImageExt x = true := by
          cases hxb : hasImageExt x
          · exact absurd hxb hxext
          · rfl
        rcases hdir x (by simp) with h1 | ⟨hxrf, hxc⟩
        · exact absurd h1 hxext
        · rcases hxc with hxe | hxo
          · rw [compare_skip_err readFails cmp x xs hxtrue hxrf hxe]
            exact ih hrest
          · rw [compare_skip_nomatch readFails cmp x xs hxtrue hxrf hxo]
            exact ih hrest

/-- Witness for C4: with the only matching comparison raising for `E100.jpg`
inside a directory where `E200.jpg` errors as well, the erroring head is
skipped and the whole scan returns "no match". -/
theorem C4_witness :
    compare_with_stored_faces rfF (fun _ => CmpResult.err) ["E100.jpg", "E200.jpg"]
      = compare_with_stored_faces rfF (fun _ => CmpResult.err) ["E200.jpg"]
    ∧ compare_with_stored_faces rfF (fun _ => CmpResult.err) ["E100.jpg", "E200.jpg"]
      = (none, 0) :=
  C4_errors_skipped rfF (fun _ => CmpResult.err) "E100.jpg" ["E200.jpg"]
    ["E100.jpg", "E200.jpg"] (by decide) (by decide) (by decide) (by decide)

/-- Claim C9, counterexample: the directory entry `.jpg` passes the
case-insensitive extension filter and is matched, but the identity code the
scan records is the whole filename `.jpg`, not the filename with the
`.jpg` extension removed (which would be the empty string): CPython
`os.path.splitext` keeps a leading-dot name intact. -/
theorem C9_counterexample :
    hasImageExt ".jpg" = true
    ∧ compare_with_stored_faces rfF cmpDot [".jpg"] = (some ".jpg", 90)
    ∧ String.dropRight ".jpg" 4 = ""
    ∧ some ".jpg" ≠ some (String.dropRight ".jpg" 4) := by
  refine ⟨by decide, ?_, by decide, by decide⟩
  decide

/-- Claim C9, amended: entries that do not end (case-insensitively) in
`.png`, `.jpg` or `.jpeg` are skipped; a matched entry's identity code is
the root that `os.path.splitext` computes — the prefix before the last dot
when some non-dot character precedes that dot, and the whole filename when
every preceding character is a dot (e.g. a file named `.jpg`). -/
theorem C9_amended (readFails : String → Bool) (cmp : String → CmpResult)
    (g f : String) (rest : List String) (sim : ℤ) (sims : List ℤ)
    (stem stem2 ec : List Char)
    (hg : hasImageExt g = false)
    (hf : hasImageExt f = true) (hrf : readFails f = false)
    (hcmp : cmp f = .ok (sim :: sims))
    (hstem : ∃ c ∈ stem, c ≠ '.') (hec : '.' ∉ ec)
    (hall : ∀ c ∈ stem2, c = '.') :
    compare_with_stored_faces readFails cmp (g :: rest)
      = compare_with_stored_faces readFails cmp rest
    ∧ compare_with_stored_faces readFails cmp (f :: rest)
      = (some (splitextRoot f), sim)
    ∧ splitextRootL (stem ++ '.' :: ec) = stem
    ∧ splitextRootL (stem2 ++ '.' :: ec) = stem2 ++ '.' :: ec :=
  ⟨compare_skip_nonimage readFails cmp g rest hg,
   compare_hit readFails cmp f rest sim sims hf hrf hcmp,
   splitextRootL_append stem ec hec hstem,
   splitextRootL_append_alldots stem2 ec hec hall⟩

/-- Witness for the amended C9 at concrete filenames: `notes.txt` is
skipped, the matched `E100.jpg` yields identity `E100`, `a.b` ++ `.jpg`
splits before the last dot, and the all-dots stem of `..jpg` is kept. -/
theorem C9_amended_witness :
    compare_with_stored_faces rfF cmpTwo ["notes.txt"]
      = compare_with_stored_faces rfF cmpTwo []
    ∧ compare_with_stored_faces rfF cmpTwo ["E100.jpg"]
      = (some (splitextRoot "E100.jpg"), 80)
    ∧ splitextRootL (['a', '.', 'b'] ++ '.' :: ['j', 'p', 'g']) = ['a', '.', 'b']
    ∧ splitextRootL (['.'] ++ '.' :: ['j', 'p', 'g']) = ['.'] ++ '.' :: ['j', 'p', 'g'] :=
  C9_amended rfF cmpTwo "notes.txt" "E100.jpg" [] 80 []
    ['a', '.', 'b'] ['.'] ['j', 'p', 'g']
    (by decide) (by decide) (by decide) (by decide) (by decide) (by decide) (by decide)

/-- Claim C1, counterexample: `E100` was accepted at time 0 and the frame at
time 3 is within the 5 second cooldown, so the callback is suppressed — yet
`process_frame` still rewrites the overlay text and display timestamp,
contradicting "the overlay text and overlay display timestamp are not
updated". -/
theorem C1_counterexample :
    (3 : ℤ) - 0 < sCooldown.recognition_interval
    ∧ (process_frame rfF cmpE100 cbF sCooldown ["E100.jpg"] 3).invoked = none
    ∧ sCooldown.text_display_time = none
    ∧ (process_frame rfF cmpE100 cbF sCooldown ["E100.jpg"] 3).state.text_display_time
        = some 3
    ∧ (process_frame rfF cmpE100 cbF sCooldown ["E100.jpg"] 3).state.last_recognition_text
        = some "Face Recognized: E100" := by
  refine ⟨by decide, ?_, by decide, ?_, ?_⟩ <;> decide

/-- Claim C1, amended: when a match is handled less than
`recognition_interval` seconds after the last accepted recognition of the
same identity, the callback is not invoked and the cooldown timestamp is
unchanged — but `process_frame` still updates the overlay text and the
overlay display timestamp (the suppression does not extend to the overlay). -/
theorem C1_amended (readFails : String → Bool) (cmp : String → CmpResult)
    (cb : AttendanceRecord → Bool) (s : FaceRecognitionProcessor)
    (dir : List String) (now tl : ℤ) (c : String)
    (hc : (compare_with_stored_faces readFails cmp dir).1 = some c)
    (hl : dictLookup s.last_recognition_times c = some tl)
    (hcool : now - tl < s.recognition_interval) :
    (process_frame readFails cmp cb s dir now).invoked = none
    ∧ (process_frame readFails cmp cb s dir now).state.last_recognition_times
        = s.last_recognition_times
    ∧ (process_frame readFails cmp cb s dir now).state.last_recognition_text
        = some ("Face Recognized: " ++ c)
    ∧ (process_frame readFails cmp cb s dir now).state.text_display_time
        = some now := by
  have hcne := compare_fst_ne_empty readFails cmp dir c hc
  have hsup := handle_recognition_suppressed cb s c
    (compare_with_stored_faces readFails cmp dir).2 now tl hl hcool
  simp [process_frame, hc, hcne, hsup]

/-- Witness for the amended C1: the concrete suppressed frame at time 3. -/
theorem C1_amended_witness :
    (process_frame rfF cmpE100 cbF sCooldown ["E100.jpg"] 3).state.last_recognition_times
      = sCooldown.last_recognition_times
    ∧ (process_frame rfF cmpE100 cbF sCooldown ["E100.jpg"] 3).state.last_recognition_text
      = some ("Face Recognized: " ++ "E100") := by
  have h := C1_amended rfF cmpE100 cbF sCooldown ["E100.jpg"] 3 0 "E100"
    (by decide) (by decide) (by decide)
  exact ⟨h.2.1, h.2.2.1⟩

/-- Claim C2: once a recognition of an identity is accepted at time `t`, any
sequence of further matches handled at times `t'` with `t' - t` below the
interval is wholly suppressed — no callback runs and the state is untouched
— and a match handled once the interval has elapsed is accepted again. -/
theorem C2_cooldown (cb : AttendanceRecord → Bool) (s : FaceRecognitionProcessor)
    (i : String) (sim t sim2 t2 : ℤ) (attempts : List (ℤ × ℤ))
    (hacc : ((handle_recognition cb s i sim t).2.1).isSome = true)
    (hatt : ∀ p ∈ attempts, p.1 - t < s.recognition_interval)
    (ht2 : s.recognition_interval ≤ t2 - t) :
    handleMany cb (handle_recognition cb s i sim t).1 i attempts
      = ((handle_recognition cb s i sim t).1, [])
    ∧ ((handle_recognition cb (handle_recognition cb s i sim t).1 i sim2 t2).2.1).isSome
        = true := by
  have hstate := handle_recognition_invoked_state cb s i sim t hacc
  have hlook : dictLookup (handle_recognition cb s i sim t).1.last_recognition_times i
      = some t := by
    rw [hstate]
    exact dictLookup_dictInsert_self s.last_recognition_times i t
  have hint : (handle_recognition cb s i sim t).1.recognition_interval
      = s.recognition_interval := (handle_recognition_fields cb s i sim t).1
  constructor
  · revert hatt
    generalize hs1 : (handle_recognition cb s i sim t).1 = s1 at hlook hint
    induction attempts with
    | nil =>
      intro _
      simp [handleMany]
    | cons p rest ih =>
      intro hatt
      have hp : p.1 - t < s1.recognition_interval := by
        rw [hint]
        exact hatt p (by simp)
      have hsup := handle_recognition_suppressed cb s1 i p.2 p.1 t hlook hp
      have hrest := ih (fun q hq => hatt q (by simp [hq]))
      cases p with
      | mk pt ps =>
        simp only [handleMany]
        rw [hsup] at *
        simp [hrest]
  · have hnotlt : ¬(t2 - t < (handle_recognition cb s i sim t).1.recognition_interval) := by
      rw [hint]
      exact not_lt.mpr ht2
    generalize hs1 : (handle_recognition cb s i sim t).1 = s1 at hlook hnotlt
    simp [handle_recognition, hlook, hnotlt]

/-- Witness for C2: accept `E100` at time 0, resubmit at time 3 (suppressed,
state unchanged), accept again at time 6. -/
theorem C2_witness :
    handleMany cbF (handle_recognition cbF sEmpty "E100" 92 0).1 "E100" [(3, 92)]
      = ((handle_recognition cbF sEmpty "E100" 92 0).1, [])
    ∧ ((handle_recognition cbF (handle_recognition cbF sEmpty "E100" 92 0).1
          "E100" 93 6).2.1).isSome = true :=
  C2_cooldown cbF sEmpty "E100" 92 0 93 6 [(3, 92)] (by decide) (by decide) (by decide)

/-- Claim C10: `process_frame` returns the matched identity code whenever the
comparator found a match and no exception occurred — in particular also when
the cooldown gate suppressed the callback — and its return value is `None`
exactly when no reference matched or an exception (a raising callback) was
caught. -/
theorem C10_return_value (readFails : String → Bool) (cmp : String → CmpResult)
    (cb : AttendanceRecord → Bool) (s : FaceRecognitionProcessor)
    (dir : List String) (now : ℤ) :
    ((process_frame readFails cmp cb s dir now).ret = none
      ↔ (compare_with_stored_faces readFails cmp dir).1 = none
        ∨ (process_frame readFails cmp cb s dir now).raised = true)
    ∧ (∀ c, (compare_with_stored_faces readFails cmp dir).1 = some c →
        (process_frame readFails cmp cb s dir now).raised = false →
        (process_frame readFails cmp cb s dir now).ret = some c)
    ∧ (∀ c tl, (compare_with_stored_faces readFails cmp dir).1 = some c →
        dictLookup s.last_recognition_times c = some tl →
        now - tl < s.recognition_interval →
        (process_frame readFails cmp cb s dir now).invoked = none
        ∧ (process_frame readFails cmp cb s dir now).ret = some c) := by
  cases hc : (compare_with_stored_faces readFails cmp dir).1 with
  | none =>
    refine ⟨?_, ?_, ?_⟩
    · simp [process_frame, hc]
    · intro c hcc
      exact absurd hcc (by simp)
    · intro c tl hcc
      exact absurd hcc (by simp)
  | some c0 =>
    have hcne := compare_fst_ne_empty readFails cmp dir c0 hc
    by_cases hr : (handle_recognition cb s c0
        (compare_with_stored_faces readFails cmp dir).2 now).2.2 = true
    · refine ⟨?_, ?_, ?_⟩
      · simp [process_frame, hc, hcne, hr]
      · intro c hcc hraised
        cases hcc
        simp [process_frame, hc, hcne, hr] at hraised
      · intro c tl hcc hl hcool
        cases hcc
        have hsup := handle_recognition_suppressed cb s c0
          (compare_with_stored_faces readFails cmp dir).2 now tl hl hcool
        rw [hsup] at hr
        exact absurd hr (by simp)
    · refine ⟨?_, ?_, ?_⟩
      · simp [process_frame, hc, hcne, hr]
      · intro c hcc _
        cases hcc
        simp [process_frame, hc, hcne, hr]
      · intro c tl hcc hl hcool
        cases hcc
        have hsup := handle_recognition_suppressed cb s c0
          (compare_with_stored_faces readFails cmp dir).2 now tl hl hcool
        constructor
        · simp [process_frame, hc, hcne, hr, hsup]
        · simp [process_frame, hc, hcne, hr]

/-- Witness for C10: the suppressed frame at time 3 still returns `E100`
while the callback stays uninvoked. -/
theorem C10_witness :
    (process_frame rfF cmpE100 cbF sCooldown ["E100.jpg"] 3).invoked = none
    ∧ (process_frame rfF cmpE100 cbF sCooldown ["E100.jpg"] 3).ret = some "E100" :=
  (C10_return_value rfF cmpE100 cbF sCooldown ["E100.jpg"] 3).2.2 "E100" 0
    (by decide) (by decide) (by decide)

/-- Claim C5, counterexample: with overlay text and timestamp set, `stop()`
followed by `start_camera()` keeps both — the overlay state is not cleared,
contradicting "the overlay state (overlay text and display timestamp) is
cleared". -/
theorem C5_counterexample :
    (exceptState (start_camera (stop sOverlay) true)).last_recognition_text
      = some "Face Recognized: E100"
    ∧ (exceptState (start_camera (stop sOverlay) true)).text_display_time = some 10
    ∧ (exceptState (start_camera (stop sOverlay) true)).last_recognition_times
      = sOverlay.last_recognition_times := by
  refine ⟨?_, ?_, ?_⟩ <;> decide

/-- Claim C5, amended: `stop()` followed by `start_camera()` leaves the
cooldown table exactly as it was, and also leaves the overlay text and
overlay display timestamp exactly as they were: neither call clears the
overlay (only the expiry branch of the recognition loop does). -/
theorem C5_amended (s : FaceRecognitionProcessor) (opens : Bool) :
    (exceptState (start_camera (stop s) opens)).last_recognition_times
        = s.last_recognition_times
    ∧ (exceptState (start_camera (stop s) opens)).last_recognition_text
        = s.last_recognition_text
    ∧ (exceptState (start_camera (stop s) opens)).text_display_time
        = s.text_display_time := by
  cases opens <;> simp [start_camera, stop, exceptState]

/-- Claim C6: overlay text set at time `T` (always the non-empty string
`Face Recognized: ...`, with a positive wall-clock timestamp) is rendered on
every frame processed at a time `now` with `now - T ≤ text_duration`; at the
first frame with `now - T > text_duration` both overlay fields are cleared
and nothing is rendered; the overlay is shown iff
`now - T ≤ text_duration`. -/
theorem C6_overlay_invariant (s : FaceRecognitionProcessor) (now T : ℤ)
    (txt : String) (htxt : s.last_recognition_text = some txt) (hne : txt ≠ "")
    (hT : s.text_display_time = some T) (hT0 : T ≠ 0) :
    ((now - T ≤ s.text_duration) → overlay_step s now = (s, true))
    ∧ ((s.text_duration < now - T) → overlay_step s now =
        ({ s with last_recognition_text := none, text_display_time := none }, false))
    ∧ ((overlay_step s now).2 = true ↔ now - T ≤ s.text_duration) := by
  have hcond : ¬(txt = "" ∨ T = 0) := by
    push_neg
    exact ⟨hne, hT0⟩
  refine ⟨?_, ?_, ?_⟩
  · intro hle
    simp [overlay_step, htxt, hT, hcond, hle]
  · intro hgt
    simp [overlay_step, htxt, hT, hcond, not_le.mpr hgt]
  · by_cases hle : now - T ≤ s.text_duration
    · simp [overlay_step, htxt, hT, hcond, hle]
    · simp [overlay_step, htxt, hT, hcond, hle]

/-- Witness for C6: the overlay set at time 10 is rendered at time 11
(within the 2 second duration) and the shown-iff equivalence holds there. -/
theorem C6_witness :
    overlay_step sOverlay 11 = (sOverlay, true)
    ∧ ((overlay_step sOverlay 11).2 = true ↔ (11 : ℤ) - 10 ≤ sOverlay.text_duration) := by
  have h := C6_overlay_invariant sOverlay 11 10 "Face Recognized: E100"
    (by decide) (by decide) (by decide) (by decide)
  exact ⟨h.1 (by decide), h.2.2⟩

/-- The last-process timestamp followed by the clock values of the executed
match cycles always forms a chain whose consecutive gaps are at least the
recognition interval: the interval is preserved by every iteration, a cycle
runs only when the gap test passes, and running a cycle resets the
timestamp to the cycle's clock value. -/
theorem cycle_times_chain (readFails : String → Bool) (cmp : String → CmpResult)
    (cb : AttendanceRecord → Bool) (dir : List String) (q : ℤ) :
    ∀ (inputs : List IterInput) (s : FaceRecognitionProcessor) (lpt : ℤ),
      s.recognition_interval = q →
      List.Chain' (fun a b => q ≤ b - a)
        (lpt :: cycleTimesOf (run_recognition_loop readFails cmp cb dir s lpt inputs).trace) := by
  intro inputs
  induction inputs with
  | nil =>
    intro s lpt hq
    simp [run_recognition_loop, cycleTimesOf]
  | cons inp rest ih =>
    intro s lpt hq
    have hs0q : (if inp.stopRequested then { s with is_running := false } else s).recognition_interval = q := by
      cases inp.stopRequested <;> simp [hq]
    set s0 := if inp.stopRequested then { s with is_running := false } else s with hs0
    by_cases hrun : s0.is_running = false
    · simp [run_recognition_loop, ← hs0, hrun, cycleTimesOf]
    · have hspec := loop_iteration_spec readFails cmp cb dir s0 lpt inp
      set r := loop_iteration readFails cmp cb dir s0 lpt inp with hr
      have hgap : r.ranMatchCycle = true → q ≤ r.time - lpt := by
        intro hcyc
        rw [hspec.2.2.2.1] at hcyc
        have := (Bool.and_eq_true _ _).mp hcyc
        have hd := of_decide_eq_true this.2
        rw [hspec.1, ← hs0q]
        exact hd
      have hlpt_eq : r.last_process_time = (if r.ranMatchCycle then inp.current_time else lpt) :=
        hspec.2.2.2.2.1
      have hrq : r.state.recognition_interval = q := by
        rw [hspec.2.2.2.2.2.1, hs0q]
      by_cases hbrk : r.brokeOut = true
      · simp only [run_recognition_loop, ← hs0, hrun, if_false, ← hr, hbrk, if_true]
        cases hcyc : r.ranMatchCycle with
        | false => simp [cycleTimesOf, hcyc]
        | true =>
          simp only [cycleTimesOf, List.filter, hcyc, List.map]
          exact List.chain'_cons.mpr ⟨hgap hcyc, List.chain'_singleton _⟩
      · simp only [run_recognition_loop, ← hs0, hrun, if_false, ← hr, hbrk]
        cases hcyc : r.ranMatchCycle with
        | false =>
          have hpl : r.last_process_time = lpt := by rw [hlpt_eq, hcyc]; simp
          rw [hpl]
          simpa [cycleTimesOf, hcyc] using ih r.state lpt hrq
        | true =>
          have hlt : r.last_process_time = r.time := by
            rw [hlpt_eq, hcyc, hspec.1]
            simp
          rw [hlt]
          simp only [cycleTimesOf, List.filter, hcyc, List.map]
          refine List.chain'_cons.mpr ⟨hgap hcyc, ?_⟩
          simpa [cycleTimesOf, hcyc] using ih r.state r.time hrq

/-- Claim C7: in an iteration whose capture succeeded, the match cycle runs
iff at least `recognition_interval` seconds elapsed since the last processed
frame, and consequently — since the last-processed timestamp is reset to the
cycle's clock value exactly when a cycle runs — the clock values of
consecutive match cycles in any run of the loop are at least the interval
apart. -/
theorem C7_match_cycle_gate (readFails : String → Bool) (cmp : String → CmpResult)
    (cb : AttendanceRecord → Bool) (dir : List String)
    (s : FaceRecognitionProcessor) (lpt : ℤ) (inputs : List IterInput)
    (inp : IterInput) (hret : inp.ret = true) :
    ((loop_iteration readFails cmp cb dir s lpt inp).ranMatchCycle = true
      ↔ s.recognition_interval ≤ inp.current_time - lpt)
    ∧ List.Chain' (fun a b => s.recognition_interval ≤ b - a)
        (lpt :: cycleTimesOf
          (run_recognition_loop readFails cmp cb dir s lpt inputs).trace) := by
  constructor
  · rw [(loop_iteration_spec readFails cmp cb dir s lpt inp).2.2.2.1, hret]
    simp
  · exact cycle_times_chain readFails cmp cb dir s.recognition_interval inputs s lpt rfl

/-- Witness for C7: a concrete two-iteration run in which the first frame at
time 5 passes the gate and the second at time 7 does not. -/
theorem C7_witness :
    ((loop_iteration rfF cmpE100 cbF ["E100.jpg"] sRun 0
        { stopRequested := false, ret := true, current_time := 5, keyIsQ := false }).ranMatchCycle = true
      ↔ sRun.recognition_interval ≤ (5 : ℤ) - 0)
    ∧ List.Chain' (fun a b => sRun.recognition_interval ≤ b - a)
        (0 :: cycleTimesOf
          (run_recognition_loop rfF cmpE100 cbF ["E100.jpg"] sRun 0
            [{ stopRequested := false, ret := true, current_time := 5, keyIsQ := false },
             { stopRequested := false, ret := true, current_time := 7, keyIsQ := false }]).trace) :=
  C7_match_cycle_gate rfF cmpE100 cbF ["E100.jpg"] sRun 0
    [{ stopRequested := false, ret := true, current_time := 5, keyIsQ := false },
     { stopRequested := false, ret := true, current_time := 7, keyIsQ := false }]
    { stopRequested := false, ret := true, current_time := 5, keyIsQ := false }
    (by decide)

/-- With the running flag set and no stop request or `q` key in the inputs,
the loop consumes every iteration and is still running at the end. -/
theorem loop_keeps_running (readFails : String → Bool) (cmp : String → CmpResult)
    (cb : AttendanceRecord → Bool) (dir : List String) :
    ∀ (inputs : List IterInput) (s : FaceRecognitionProcessor) (lpt : ℤ),
      s.is_running = true →
      (∀ j ∈ inputs, j.keyIsQ = false) →
      (∀ j ∈ inputs, j.stopRequested = false) →
      (run_recognition_loop readFails cmp cb dir s lpt inputs).exit = LoopExit.fuelOut := by
  intro inputs
  induction inputs with
  | nil =>
    intro s lpt _ _ _
    simp [run_recognition_loop]
  | cons j rest ih =>
    intro s lpt hrun hq hstop
    have hjq : j.keyIsQ = false := hq j (by simp)
    have hjs : j.stopRequested = false := hstop j (by simp)
    have hspec := loop_iteration_spec readFails cmp cb dir s lpt j
    have hbrk : (loop_iteration readFails cmp cb dir s lpt j).brokeOut = false := by
      rw [hspec.2.1, hjq]
      simp
    have hnext := ih (loop_iteration readFails cmp cb dir s lpt j).state
      (loop_iteration readFails cmp cb dir s lpt j).last_process_time
      (by rw [hspec.2.2.2.2.2.2, hrun])
      (fun x hx => hq x (by simp [hx]))
      (fun x hx => hstop x (by simp [hx]))
    simp [run_recognition_loop, hjs, hrun, hbrk, hnext]

/-- Claim C8, counterexample: with the running flag still true and no
`stop()` request, a single iteration whose `cv2.waitKey` reports the `q` key
makes `run_recognition` leave its loop — the loop does not terminate only
through `stop()`. -/
theorem C8_counterexample :
    (run_recognition rfF cmpE100 cbF ["E100.jpg"] sEmpty 0
        [{ stopRequested := false, ret := true, current_time := 1, keyIsQ := true }]).exit
      = LoopExit.qPressed
    ∧ (run_recognition rfF cmpE100 cbF ["E100.jpg"] sEmpty 0
        [{ stopRequested := false, ret := true, current_time := 1, keyIsQ := true }]).state.is_running
      = true := by
  refine ⟨?_, ?_⟩ <;> decide

/-- Claim C8, amended: the loop runs until `stop()` clears the running flag
or the `q` key is pressed: with no stop request and no `q` key it never
exits on its own; an iteration breaks out iff its capture succeeded and the
`q` key was pressed; and the bounded 0.1 s sleep ends exactly the iterations
whose capture succeeded and that did not break out — a failed capture
`continue`s straight to the condition check, skipping the sleep. -/
theorem C8_amended (readFails : String → Bool) (cmp : String → CmpResult)
    (cb : AttendanceRecord → Bool) (dir : List String)
    (s : FaceRecognitionProcessor) (lpt : ℤ) (inputs : List IterInput)
    (inp : IterInput)
    (hrun : s.is_running = true)
    (hq : ∀ j ∈ inputs, j.keyIsQ = false)
    (hstop : ∀ j ∈ inputs, j.stopRequested = false) :
    (run_recognition_loop readFails cmp cb dir s lpt inputs).exit = LoopExit.fuelOut
    ∧ (loop_iteration readFails cmp cb dir s lpt inp).brokeOut
        = (inp.ret && inp.keyIsQ)
    ∧ (loop_iteration readFails cmp cb dir s lpt inp).slept
        = (inp.ret && !inp.keyIsQ) :=
  ⟨loop_keeps_running readFails cmp cb dir inputs s lpt hrun hq hstop,
   (loop_iteration_spec readFails cmp cb dir s lpt inp).2.1,
   (loop_iteration_spec readFails cmp cb dir s lpt inp).2.2.1⟩

/-- Witness for the amended C8: a concrete quiet run keeps looping, and the
step equations hold at a concrete capture-failure iteration (no sleep). -/
theorem C8_amended_witness :
    (run_recognition_loop rfF cmpE100 cbF ["E100.jpg"] sRun 0
        [{ stopRequested := false, ret := true, current_time := 5, keyIsQ := false }]).exit
      = LoopExit.fuelOut
    ∧ (loop_iteration rfF cmpE100 cbF ["E100.jpg"] sRun 0
        { stopRequested := false, ret := false, current_time := 6, keyIsQ := false }).brokeOut
      = (false && false)
    ∧ (loop_iteration rfF cmpE100 cbF ["E100.jpg"] sRun 0
        { stopRequested := false, ret := false, current_time := 6, keyIsQ := false }).slept
      = (false && !false) :=
  C8_amended rfF cmpE100 cbF ["E100.jpg"] sRun 0
    [{ stopRequested := false, ret := true, current_time := 5, keyIsQ := false }]
    { stopRequested := false, ret := false, current_time := 6, keyIsQ := false }
    (by decide) (by decide) (by decide)
